import Mathlib

/-!
Shallow embedding of the mesh-cleaning pipeline in `clean_mesh.py`
(`clean_mesh_pipeline`).  Vertices and faces are indexed by `Fin`;
the per-vertex curvature scalars and the thresholds are modelled as
rationals (exact arithmetic standing in for the float arrays).  The
external collaborators (mesh loader, curvature provider, adjacency
builder, boundary detector, connected-component clusterer) deliver
their outputs as fields of `MeshData`.
-/

namespace CleanMesh

/-- Stage 1 of `clean_mesh_pipeline` (clean_mesh.py lines 56-60):
if enabled, every vertex whose curvature exceeds the high threshold or
falls below the low threshold is written the code 1; other entries of
the reason buffer are left as they were. -/
def stage1 {V : Type} (flag : Bool) (curv : V → ℚ) (hi lo : ℚ) (r : V → ℕ) : V → ℕ :=
  if flag then (fun v => if curv v > hi ∨ curv v < lo then 1 else r v) else r

/-- Variance computed for a vertex in stage 2 (clean_mesh.py lines 65-69):
`np.var` of the curvature values of the vertex's neighbour set, left at
the `np.zeros_like` default 0 when the neighbour set is empty.
`np.var` is the population variance, the mean of the squared deviations
from the mean. -/
def varianceOf {V : Type} (curv : V → ℚ) (adj : V → Finset V) (v : V) : ℚ :=
  if (adj v).card = 0 then 0
  else ((adj v).sum (fun u => (curv u - (adj v).sum curv / (adj v).card) ^ 2)) / (adj v).card

/-- Stage 2 of `clean_mesh_pipeline` (clean_mesh.py lines 63-73):
if enabled, every vertex whose neighbour-curvature variance exceeds the
threshold and whose reason is still 0 is written the code 2. -/
def stage2 {V : Type} (flag : Bool) (curv : V → ℚ) (adj : V → Finset V) (thresh : ℚ)
    (r : V → ℕ) : V → ℕ :=
  if flag then (fun v => if varianceOf curv adj v > thresh ∧ r v = 0 then 2 else r v) else r

/-- One pass of the border-dilation loop (clean_mesh.py lines 86-92):
`new_borders` starts as a copy of `border_mask` and every neighbour of a
vertex flagged in the old mask is flagged in the new one, so the new set
is the old set united with the neighbours of the old set. -/
def dilateOnce {V : Type} [DecidableEq V] (adj : V → Finset V) (s : Finset V) : Finset V :=
  s ∪ s.biUnion adj

/-- Iterating the border dilation `border_rings` times (clean_mesh.py
line 86, the `for _ in range(border_rings)` loop). -/
def dilate {V : Type} [DecidableEq V] (adj : V → Finset V) : ℕ → Finset V → Finset V
  | 0, s => s
  | k + 1, s => dilate adj k (dilateOnce adj s)

/-- Stage 3 of `clean_mesh_pipeline` (clean_mesh.py lines 79-94):
if enabled, the boundary seed set is dilated `rings` times and every
vertex in the result whose reason is still 0 is written the code 3. -/
def stage3 {V : Type} [DecidableEq V] (flag : Bool) (adj : V → Finset V) (seed : Finset V)
    (rings : ℕ) (r : V → ℕ) : V → ℕ :=
  if flag then (fun v => if v ∈ dilate adj rings seed ∧ r v = 0 then 3 else r v) else r

/-- Face-level reason derivation (clean_mesh.py line 104):
`np.max(removal_reason[original_triangles], axis=1)`, the maximum of the
three vertex reasons of the face. -/
def faceReasonOf {V : Type} (r : V → ℕ) (t : V × V × V) : ℕ :=
  max (r t.1) (max (r t.2.1) (r t.2.2))

/-- The faces whose current face reason is 0, the `preliminary_kept_faces`
mask of clean_mesh.py line 109, as a finite set. -/
def keptFaces {F : Type} [Fintype F] (fr : F → ℕ) : Finset F :=
  Finset.univ.filter (fun f => fr f = 0)

/-- Number of preliminarily-kept faces carrying cluster id `c`. -/
def keptCount {F : Type} [Fintype F] (cl : F → ℕ) (fr : F → ℕ) (c : ℕ) : ℕ :=
  ((keptFaces fr).filter (fun f => cl f = c)).card

/-- The cluster ids occurring among preliminarily-kept faces. -/
def keptClusterIds {F : Type} [Fintype F] (cl : F → ℕ) (fr : F → ℕ) : Finset ℕ :=
  (keptFaces fr).image cl

/-- The `kept_clusters` array of clean_mesh.py line 121:
`triangle_clusters_np[preliminary_kept_faces]`, the cluster ids of the
preliminarily-kept faces in face order. -/
def keptClustersList (nF : ℕ) (cl : Fin nF → ℕ) (fr : Fin nF → ℕ) : List ℕ :=
  ((List.finRange nF).filter (fun f => fr f = 0)).map cl

/-- Model of `np.unique(l)`: the distinct values of `l`, sorted
ascending. -/
def npUnique (l : List ℕ) : List ℕ := List.insertionSort (· ≤ ·) l.dedup

/-- Model of the `return_counts=True` component of `np.unique`: for each
entry of `u` the number of its occurrences in `l`. -/
def npCounts (l : List ℕ) (u : List ℕ) : List ℕ := u.map (fun c => l.count c)

/-- Maximum of a list of naturals, 0 for the empty list. -/
def npMax (l : List ℕ) : ℕ := l.foldr max 0

/-- Model of `np.argmax`: the index of the first occurrence of the
maximum value of the list (numpy documents that with several maxima the
index of the first occurrence is returned). -/
def npArgmax (l : List ℕ) : ℕ := l.indexOf (npMax l)

/-- The `largest_kept_cluster_id` of clean_mesh.py lines 123-126:
`unique_clusters[np.argmax(counts)]` where `unique_clusters, counts =
np.unique(kept_clusters, return_counts=True)`. -/
def largest_kept_cluster_id (nF : ℕ) (cl : Fin nF → ℕ) (fr : Fin nF → ℕ) : ℕ :=
  (npUnique (keptClustersList nF cl fr)).getD
    (npArgmax (npCounts (keptClustersList nF cl fr) (npUnique (keptClustersList nF cl fr)))) 0

/-- Stage 4 of `clean_mesh_pipeline` (clean_mesh.py lines 107-133):
if enabled, and `cluster_n_triangles` and `kept_clusters` are both
non-empty, every preliminarily-kept face whose cluster id differs from
`largest_kept_cluster_id` is written the code 4. -/
def stage4 (nF : ℕ) (flag : Bool) (numClusters : ℕ) (cl : Fin nF → ℕ)
    (fr : Fin nF → ℕ) : Fin nF → ℕ :=
  if flag ∧ 0 < numClusters ∧ 0 < (keptClustersList nF cl fr).length then
    (fun f => if fr f = 0 ∧ cl f ≠ largest_kept_cluster_id nF cl fr then 4 else fr f)
  else fr

/-- Inputs of one pipeline run, as delivered by the external
collaborators: vertex and face counts from the mesh loader, triangles,
the adjacency list (clean_mesh.py line 48), the non-manifold boundary
vertex set (line 82), the per-face cluster ids and cluster count from
`cluster_connected_triangles` (lines 112-114), and the per-vertex mean
curvature from `calculate_curvature` (line 43). -/
structure MeshData where
  nV : ℕ
  nF : ℕ
  tri : Fin nF → Fin nV × Fin nV × Fin nV
  adj : Fin nV → Finset (Fin nV)
  boundary : Finset (Fin nV)
  clusters : Fin nF → ℕ
  numClusters : ℕ
  curv : Fin nV → ℚ

/-- Configuration of `clean_mesh_pipeline` (its keyword parameters). -/
structure Config where
  clean_by_curvature : Bool
  curv_high_thresh : ℚ
  curv_low_thresh : ℚ
  clean_by_variance : Bool
  variance_thresh : ℚ
  clean_borders : Bool
  border_rings : ℕ
  remove_islands : Bool

/-- The default parameter values of `clean_mesh_pipeline`
(clean_mesh.py lines 20-30). -/
def defaultConfig : Config :=
  ⟨true, 5 / 100, -1 / 10, true, 1 / 1000, true, 5, true⟩

/-- Vertex reason buffer right after stage 1 (snapshot of
`removal_reason` after clean_mesh.py line 60). -/
def snap1 (m : MeshData) (cfg : Config) : Fin m.nV → ℕ :=
  stage1 cfg.clean_by_curvature m.curv cfg.curv_high_thresh cfg.curv_low_thresh (fun _ => 0)

/-- Vertex reason buffer right after stage 2 (snapshot of
`removal_reason` after clean_mesh.py line 73). -/
def snap2 (m : MeshData) (cfg : Config) : Fin m.nV → ℕ :=
  stage2 cfg.clean_by_variance m.curv m.adj cfg.variance_thresh (snap1 m cfg)

/-- Vertex reason buffer right after stage 3 (snapshot of
`removal_reason` after clean_mesh.py line 94); stage 4 is face-level,
so this is also the final vertex reason buffer. -/
def snap3 (m : MeshData) (cfg : Config) : Fin m.nV → ℕ :=
  stage3 cfg.clean_borders m.adj m.boundary cfg.border_rings (snap2 m cfg)

/-- Face reason buffer as derived on clean_mesh.py line 104, before the
island stage. -/
def facePre (m : MeshData) (cfg : Config) : Fin m.nF → ℕ :=
  fun f => faceReasonOf (snap3 m cfg) (m.tri f)

/-- The classification computed by `clean_mesh_pipeline`: the final
vertex reason buffer and the final face reason buffer (after the island
stage). -/
def computeReasons (m : MeshData) (cfg : Config) : (Fin m.nV → ℕ) × (Fin m.nF → ℕ) :=
  (snap3 m cfg, stage4 m.nF cfg.remove_islands m.numClusters m.clusters (facePre m cfg))

/-- Model of `load_mesh` (utils/mesh.py lines 71-96) for an in-memory
mesh: an empty mesh (`mesh.is_empty()`, no vertices) raises a
`ValueError`; otherwise the mesh is returned unchanged.  The
file-not-found branch is I/O and outside the model. -/
def load_mesh (m : MeshData) : Except String MeshData :=
  if m.nV = 0 then Except.error "No vertices found in the final mesh. Aborting."
  else Except.ok m

/-- The body of the `try:` block of `clean_mesh_pipeline` (clean_mesh.py
lines 35-180): load the mesh (which raises on an empty mesh, before any
stage runs) and then compute the reason buffers.  The buffers are used
for the visualization only; the body produces no return value carrying
them. -/
def pipeline_body (m : MeshData) (cfg : Config) :
    Except String ((Fin m.nV → ℕ) × (Fin m.nF → ℕ)) :=
  match load_mesh m with
  | Except.error e => Except.error e
  | Except.ok _ => Except.ok (computeReasons m cfg)

/-- Observable outcome of one call of `clean_mesh_pipeline`:
`raised` is the exception propagated out of the call, `returned` the
value returned to the caller, `computed` the reason buffers the body
produced internally (consumed by the visualization). -/
structure RunResult (α : Type) where
  raised : Option String
  returned : Option α
  computed : Option α

/-- Model of the whole `clean_mesh_pipeline` call (clean_mesh.py
lines 16-183): the `try:` block runs the body; the `except Exception`
handler on lines 182-183 catches every exception and only logs it, so
no exception ever propagates; the function has no `return` statement
delivering the buffers, so the returned value is Python's `None` on
every path. -/
def clean_mesh_pipeline (m : MeshData) (cfg : Config) :
    RunResult ((Fin m.nV → ℕ) × (Fin m.nF → ℕ)) :=
  match pipeline_body m cfg with
  | Except.ok res => ⟨none, none, some res⟩
  | Except.error _ => ⟨none, none, none⟩

/-! Concrete inputs used by witnesses and counterexamples. -/

/-- An empty mesh: no vertices, no faces. -/
def emptyMesh : MeshData :=
  ⟨0, 0, Fin.elim0, Fin.elim0, ∅, Fin.elim0, 0, Fin.elim0⟩

/-- A small valid mesh: 3 vertices, one face, one cluster, flat
curvature, no adjacency, no boundary. -/
def demoMesh : MeshData :=
  ⟨3, 1, fun _ => (⟨0, by decide⟩, ⟨1, by decide⟩, ⟨2, by decide⟩),
   fun _ => ∅, ∅, fun _ => 0, 1, fun _ => 0⟩

/-- A mesh with a single isolated vertex (empty neighbour set). -/
def loneMesh : MeshData :=
  ⟨1, 0, Fin.elim0, fun _ => ∅, ∅, Fin.elim0, 0, fun _ => 0⟩

/-- Configuration with only the variance stage enabled and a negative
variance threshold. -/
def negVarCfg : Config := ⟨false, 0, 0, true, -1, false, 0, false⟩

/-- Configuration with all four stage flags disabled. -/
def offConfig : Config := ⟨false, 0, 0, false, 0, false, 0, false⟩

/-- A two-vertex mesh whose first vertex has curvature 1, with no
edges and no boundary. -/
def wMesh : MeshData :=
  ⟨2, 0, Fin.elim0, fun _ => ∅, ∅, Fin.elim0, 0,
   fun v => if v.val = 0 then 1 else 0⟩

/-- Configuration enabling all stages with integer-valued thresholds. -/
def wCfg : Config := ⟨true, 0, -10, true, 0, true, 0, true⟩

/-- Curvature field of the spec's concrete scenario:
`[0.1, -0.2, 0, 0, 0, 0, 0, 0, 0, 0]`. -/
def scenarioCurv : Fin 10 → ℚ := fun v =>
  if v.val = 0 then 1 / 10 else if v.val = 1 then -1 / 5 else 0

/-! Helper lemmas: the three possible outcomes of each vertex stage on a
single buffer entry. -/

theorem stage1_eq_or {V : Type} (b : Bool) (curv : V → ℚ) (hi lo : ℚ) (r : V → ℕ) (v : V) :
    stage1 b curv hi lo r v = r v ∨ stage1 b curv hi lo r v = 1 := by
  unfold stage1
  split
  · dsimp only
    split
    · exact Or.inr rfl
    · exact Or.inl rfl
  · exact Or.inl rfl

theorem stage2_eq_or {V : Type} (b : Bool) (curv : V → ℚ) (adj : V → Finset V) (t : ℚ)
    (r : V → ℕ) (v : V) :
    stage2 b curv adj t r v = r v ∨ (r v = 0 ∧ stage2 b curv adj t r v = 2) := by
  unfold stage2
  split
  · dsimp only
    split
    · next h => exact Or.inr ⟨h.2, rfl⟩
    · exact Or.inl rfl
  · exact Or.inl rfl

theorem stage3_eq_or {V : Type} [DecidableEq V] (b : Bool) (adj : V → Finset V)
    (seed : Finset V) (k : ℕ) (r : V → ℕ) (v : V) :
    stage3 b adj seed k r v = r v ∨ (r v = 0 ∧ stage3 b adj seed k r v = 3) := by
  unfold stage3
  split
  · dsimp only
    split
    · next h => exact Or.inr ⟨h.2, rfl⟩
    · exact Or.inl rfl
  · exact Or.inl rfl

theorem stage4_eq_or (nF : ℕ) (flag : Bool) (numClusters : ℕ) (cl fr : Fin nF → ℕ)
    (f : Fin nF) :
    stage4 nF flag numClusters cl fr f = fr f
    ∨ (fr f = 0 ∧ stage4 nF flag numClusters cl fr f = 4) := by
  unfold stage4
  split
  · dsimp only
    split
    · next h => exact Or.inr ⟨h.1, rfl⟩
    · exact Or.inl rfl
  · exact Or.inl rfl

/-- C1: for every vertex, after every stage the reason code is one of
{0,1,2,3}; stage 2 and stage 3 write only to vertices whose reason is
still 0, so a non-zero code is never changed by a later stage; stage 4
is face-level, so the pipeline's final vertex buffer is the stage-3
snapshot. -/
theorem vertex_reason_stage_invariants (m : MeshData) (cfg : Config) :
    (∀ v, snap1 m cfg v ∈ ({0, 1, 2, 3} : Finset ℕ)
      ∧ snap2 m cfg v ∈ ({0, 1, 2, 3} : Finset ℕ)
      ∧ snap3 m cfg v ∈ ({0, 1, 2, 3} : Finset ℕ))
    ∧ (∀ v, snap1 m cfg v ≠ 0 → snap2 m cfg v = snap1 m cfg v)
    ∧ (∀ v, snap2 m cfg v ≠ 0 → snap3 m cfg v = snap2 m cfg v)
    ∧ (∀ v, snap2 m cfg v ≠ snap1 m cfg v → snap1 m cfg v = 0 ∧ snap2 m cfg v = 2)
    ∧ (∀ v, snap3 m cfg v ≠ snap2 m cfg v → snap2 m cfg v = 0 ∧ snap3 m cfg v = 3)
    ∧ (computeReasons m cfg).1 = snap3 m cfg := by
  have h1 : ∀ v, snap1 m cfg v = 0 ∨ snap1 m cfg v = 1 := by
    intro v
    rcases stage1_eq_or cfg.clean_by_curvature m.curv cfg.curv_high_thresh
      cfg.curv_low_thresh (fun _ => 0) v with h | h
    · exact Or.inl h
    · exact Or.inr h
  have h2 : ∀ v, snap2 m cfg v = snap1 m cfg v ∨ (snap1 m cfg v = 0 ∧ snap2 m cfg v = 2) :=
    fun v => stage2_eq_or cfg.clean_by_variance m.curv m.adj cfg.variance_thresh
      (snap1 m cfg) v
  have h3 : ∀ v, snap3 m cfg v = snap2 m cfg v ∨ (snap2 m cfg v = 0 ∧ snap3 m cfg v = 3) :=
    fun v => stage3_eq_or cfg.clean_borders m.adj m.boundary cfg.border_rings
      (snap2 m cfg) v
  have h2v : ∀ v, snap2 m cfg v = 0 ∨ snap2 m cfg v = 1 ∨ snap2 m cfg v = 2 := by
    intro v
    rcases h2 v with b | b
    · rcases h1 v with a | a
      · exact Or.inl (b.trans a)
      · exact Or.inr (Or.inl (b.trans a))
    · exact Or.inr (Or.inr b.2)
  have h3v : ∀ v, snap3 m cfg v = 0 ∨ snap3 m cfg v = 1 ∨ snap3 m cfg v = 2
      ∨ snap3 m cfg v = 3 := by
    intro v
    rcases h3 v with c | c
    · rcases h2v v with a | a | a
      · exact Or.inl (c.trans a)
      · exact Or.inr (Or.inl (c.trans a))
      · exact Or.inr (Or.inr (Or.inl (c.trans a)))
    · exact Or.inr (Or.inr (Or.inr c.2))
  refine ⟨?_, ?_, ?_, ?_, ?_, rfl⟩
  · intro v
    refine ⟨?_, ?_, ?_⟩
    · rcases h1 v with a | a <;> simp [a]
    · rcases h2v v with a | a | a <;> simp [a]
    · rcases h3v v with a | a | a | a <;> simp [a]
  · intro v hv
    rcases h2 v with b | b
    · exact b
    · exact absurd b.1 hv
  · intro v hv
    rcases h3 v with c | c
    · exact c
    · exact absurd c.1 hv
  · intro v hv
    rcases h2 v with b | b
    · exact absurd b hv
    · exact b
  · intro v hv
    rcases h3 v with c | c
    · exact absurd c hv
    · exact c

/-- Witness for C1 at a concrete mesh: the first vertex of `wMesh` is
marked 1 by stage 1 under `wCfg`, and stage 2 leaves it unchanged. -/
theorem vertex_reason_stage_invariants_witness :
    snap2 wMesh wCfg ⟨0, by decide⟩ = snap1 wMesh wCfg ⟨0, by decide⟩ :=
  (vertex_reason_stage_invariants wMesh wCfg).2.1 ⟨0, by decide⟩ (by decide)

/-- C4: the face reason derived on clean_mesh.py line 104 is the maximum
of the final reasons of the face's three vertices, and the island stage
only ever rewrites faces whose derived reason was 0 (to the code 4), so
the aggregation is fixed before the island stage runs. -/
theorem face_reason_is_max_of_vertices (m : MeshData) (cfg : Config) :
    (∀ f, facePre m cfg f
        = max ((computeReasons m cfg).1 (m.tri f).1)
            (max ((computeReasons m cfg).1 (m.tri f).2.1)
              ((computeReasons m cfg).1 (m.tri f).2.2)))
    ∧ (∀ f, (computeReasons m cfg).2 f = facePre m cfg f
        ∨ ((computeReasons m cfg).2 f = 4 ∧ facePre m cfg f = 0)) := by
  constructor
  · intro f
    rfl
  · intro f
    rcases stage4_eq_or m.nF cfg.remove_islands m.numClusters m.clusters (facePre m cfg) f
      with h | h
    · exact Or.inl h
    · exact Or.inr ⟨h.2, h.1⟩

/-- C5 counterexample: on the empty mesh the body raises the
`ValueError` of `load_mesh`, but the `except` handler on clean_mesh.py
lines 182-183 swallows it, so nothing is surfaced to the caller. -/
theorem empty_mesh_error_swallowed_cex :
    pipeline_body emptyMesh defaultConfig
      = Except.error "No vertices found in the final mesh. Aborting."
    ∧ (clean_mesh_pipeline emptyMesh defaultConfig).raised = none := ⟨rfl, rfl⟩

/-- C5 amended: on an empty mesh the pipeline aborts before any stage
runs (the body fails in `load_mesh`) and no reason buffer is produced or
returned, but the exception is caught and logged inside the function
rather than propagated: the caller receives `None`. -/
theorem empty_mesh_abort_behavior (m : MeshData) (cfg : Config) (h : m.nV = 0) :
    pipeline_body m cfg = Except.error "No vertices found in the final mesh. Aborting."
    ∧ (clean_mesh_pipeline m cfg).raised = none
    ∧ (clean_mesh_pipeline m cfg).returned = none
    ∧ (clean_mesh_pipeline m cfg).computed = none := by
  have hb : pipeline_body m cfg
      = Except.error "No vertices found in the final mesh. Aborting." := by
    unfold pipeline_body load_mesh
    rw [if_pos h]
  refine ⟨hb, ?_, ?_, ?_⟩ <;> unfold clean_mesh_pipeline <;> rw [hb]

/-- Witness for the amended C5 at the concrete empty mesh. -/
theorem empty_mesh_abort_behavior_witness :
    (clean_mesh_pipeline emptyMesh defaultConfig).computed = none :=
  (empty_mesh_abort_behavior emptyMesh defaultConfig rfl).2.2.2

/-- C6 counterexample: on a concrete valid mesh the pipeline computes
the reason pair internally but returns `None`, not the pair. -/
theorem pipeline_return_is_none_cex :
    (clean_mesh_pipeline demoMesh defaultConfig).returned = none
    ∧ (clean_mesh_pipeline demoMesh defaultConfig).returned
        ≠ some (computeReasons demoMesh defaultConfig)
    ∧ (clean_mesh_pipeline demoMesh defaultConfig).computed
        = some (computeReasons demoMesh defaultConfig) :=
  ⟨rfl, fun h => Option.noConfusion h, rfl⟩

/-- C6 amended: for every non-empty input the pipeline computes the
final (vertex_reason, face_reason) pair and consumes it internally for
the visualization, but it returns `None` to its caller and raises
nothing. -/
theorem pipeline_computes_pair_returns_none (m : MeshData) (cfg : Config) (h : m.nV ≠ 0) :
    (clean_mesh_pipeline m cfg).computed = some (computeReasons m cfg)
    ∧ (clean_mesh_pipeline m cfg).returned = none
    ∧ (clean_mesh_pipeline m cfg).raised = none := by
  have hb : pipeline_body m cfg = Except.ok (computeReasons m cfg) := by
    unfold pipeline_body load_mesh
    rw [if_neg h]
  refine ⟨?_, ?_, ?_⟩ <;> unfold clean_mesh_pipeline <;> rw [hb]

/-- Witness for the amended C6 at the concrete demo mesh. -/
theorem pipeline_computes_pair_returns_none_witness :
    (clean_mesh_pipeline demoMesh defaultConfig).computed
      = some (computeReasons demoMesh defaultConfig) :=
  (pipeline_computes_pair_returns_none demoMesh defaultConfig (by decide)).1

/-- C7 counterexample: with `variance_thresh = -1` the isolated vertex
of `loneMesh` has variance 0, yet `0 > -1` holds, so the variance stage
marks it with the code 2 — the claim fails for negative thresholds. -/
theorem zero_neighbor_marked_variance_cex :
    loneMesh.adj ⟨0, Nat.one_pos⟩ = ∅
    ∧ varianceOf loneMesh.curv loneMesh.adj ⟨0, Nat.one_pos⟩ = 0
    ∧ (computeReasons loneMesh negVarCfg).1 ⟨0, Nat.one_pos⟩ = 2 :=
  ⟨rfl, by decide, by decide⟩

/-- C7 amended: a vertex with an empty neighbour set gets variance 0 and
is never marked by the variance stage provided `variance_thresh` is
non-negative; for a negative threshold a still-kept zero-neighbour
vertex is marked with the code 2. -/
theorem zero_neighbor_variance_amended {V : Type} (curv : V → ℚ) (adj : V → Finset V)
    (thresh : ℚ) (r : V → ℕ) (v : V) (h : adj v = ∅) :
    varianceOf curv adj v = 0
    ∧ (0 ≤ thresh → stage2 true curv adj thresh r v = r v)
    ∧ (thresh < 0 → r v = 0 → stage2 true curv adj thresh r v = 2) := by
  have hv : varianceOf curv adj v = 0 := by simp [varianceOf, h]
  refine ⟨hv, ?_, ?_⟩
  · intro ht
    have hc : ¬(varianceOf curv adj v > thresh ∧ r v = 0) := by
      rw [hv]
      exact fun hq => absurd hq.1 (not_lt.2 ht)
    simp [stage2, hc]
  · intro ht h0
    have hc : varianceOf curv adj v > thresh ∧ r v = 0 := ⟨hv ▸ ht, h0⟩
    simp [stage2, hc]

/-- Witness for the amended C7 at the concrete isolated vertex. -/
theorem zero_neighbor_variance_amended_witness :
    stage2 true loneMesh.curv loneMesh.adj 0 (fun _ => 0) ⟨0, Nat.one_pos⟩ = 0 :=
  (zero_neighbor_variance_amended loneMesh.curv loneMesh.adj 0 (fun _ => 0)
    ⟨0, Nat.one_pos⟩ rfl).2.1 (by decide)

/-- C8: stage 1 marks exactly the vertices whose curvature is strictly
above the high threshold or strictly below the low threshold, and on the
spec's concrete 10-vertex scenario exactly vertices 0 and 1 are marked
after stage 1. -/
theorem curvature_stage_marks_exactly_thresholded :
    (∀ (V : Type) (curv : V → ℚ) (hi lo : ℚ) (v : V),
      stage1 true curv hi lo (fun _ => 0) v = if curv v > hi ∨ curv v < lo then 1 else 0)
    ∧ (∀ v : Fin 10, stage1 true scenarioCurv (5 / 100) (-1 / 10) (fun _ => 0) v
        = if v.val = 0 ∨ v.val = 1 then 1 else 0) := by
  constructor
  · intro V curv hi lo v
    simp [stage1]
  · intro v
    fin_cases v <;> simp [stage1, scenarioCurv] <;> norm_num

/-- C9: every disabled stage is the identity on the reason buffer, and
with all four flags disabled both final buffers are all-zero for every
input. -/
theorem disabled_stages_are_noops :
    (∀ (V : Type) (curv : V → ℚ) (hi lo : ℚ) (r : V → ℕ), stage1 false curv hi lo r = r)
    ∧ (∀ (V : Type) (curv : V → ℚ) (adj : V → Finset V) (t : ℚ) (r : V → ℕ),
        stage2 false curv adj t r = r)
    ∧ (∀ (V : Type) [DecidableEq V] (adj : V → Finset V) (s : Finset V) (k : ℕ)
        (r : V → ℕ), stage3 false adj s k r = r)
    ∧ (∀ (nF numClusters : ℕ) (cl fr : Fin nF → ℕ), stage4 nF false numClusters cl fr = fr)
    ∧ (∀ (m : MeshData) (cfg : Config),
        cfg.clean_by_curvature = false → cfg.clean_by_variance = false →
        cfg.clean_borders = false → cfg.remove_islands = false →
        computeReasons m cfg = (fun _ => 0, fun _ => 0)) := by
  have s1 : ∀ (V : Type) (curv : V → ℚ) (hi lo : ℚ) (r : V → ℕ),
      stage1 false curv hi lo r = r := by
    intro V curv hi lo r
    simp [stage1]
  have s2 : ∀ (V : Type) (curv : V → ℚ) (adj : V → Finset V) (t : ℚ) (r : V → ℕ),
      stage2 false curv adj t r = r := by
    intro V curv adj t r
    simp [stage2]
  have s3 : ∀ (V : Type) (inst : DecidableEq V) (adj : V → Finset V) (s : Finset V)
      (k : ℕ) (r : V → ℕ), stage3 false adj s k r = r := by
    intro V inst adj s k r
    simp [stage3]
  have s4 : ∀ (nF numClusters : ℕ) (cl fr : Fin nF → ℕ),
      stage4 nF false numClusters cl fr = fr := by
    intro nF numClusters cl fr
    simp [stage4]
  refine ⟨s1, s2, fun V inst => s3 V inst, s4, ?_⟩
  intro m cfg h1 h2 h3 h4
  have hv : snap3 m cfg = fun _ => 0 := by
    unfold snap3 snap2 snap1
    rw [h1, h2, h3, s1, s2, s3]
  have hf : facePre m cfg = fun _ => 0 := by
    funext f
    unfold facePre faceReasonOf
    rw [hv]
    simp
  unfold computeReasons
  rw [h4, s4, hv, hf]

/-- Witness for C9 at a concrete mesh with all stages disabled. -/
theorem disabled_stages_are_noops_witness :
    computeReasons demoMesh offConfig = (fun _ => 0, fun _ => 0) :=
  disabled_stages_are_noops.2.2.2.2 demoMesh offConfig rfl rfl rfl rfl

/-! Bounded graph distance, for comparison with the border dilation. -/

/-- Vertices at graph distance at most `k` from the seed set: a seed
vertex (at any budget), or a neighbour of a vertex reachable within
`k` steps. -/
inductive DistLe {V : Type} (adj : V → Finset V) (seed : Finset V) : ℕ → V → Prop
  | of_seed (k : ℕ) (v : V) : v ∈ seed → DistLe adj seed k v
  | hop (k : ℕ) (u v : V) : DistLe adj seed k u → v ∈ adj u → DistLe adj seed (k + 1) v

theorem mem_dilateOnce {V : Type} [DecidableEq V] (adj : V → Finset V) (s : Finset V)
    (v : V) : v ∈ dilateOnce adj s ↔ v ∈ s ∨ ∃ u ∈ s, v ∈ adj u := by
  unfold dilateOnce
  simp [Finset.mem_union, Finset.mem_biUnion]

theorem distLe_of_dilateOnce {V : Type} [DecidableEq V] {adj : V → Finset V} {s : Finset V}
    {k : ℕ} {v : V} (h : DistLe adj (dilateOnce adj s) k v) : DistLe adj s (k + 1) v := by
  induction h with
  | of_seed j w hw =>
    rcases (mem_dilateOnce adj s w).1 hw with h1 | ⟨u, hu, hwu⟩
    · exact DistLe.of_seed _ _ h1
    · exact DistLe.hop _ u w (DistLe.of_seed _ _ hu) hwu
  | hop j u w hu hwu ih => exact DistLe.hop _ u w ih hwu

theorem distLe_hop_dilateOnce {V : Type} [DecidableEq V] {adj : V → Finset V} {s : Finset V}
    {k : ℕ} {u : V} (h : DistLe adj s k u) :
    ∀ v, v ∈ adj u → DistLe adj (dilateOnce adj s) k v := by
  induction h with
  | of_seed j w hw =>
    intro v hv
    exact DistLe.of_seed _ _ ((mem_dilateOnce adj s v).2 (Or.inr ⟨w, hw, hv⟩))
  | hop j w u2 hw hu2 ih =>
    intro v hv
    exact DistLe.hop _ u2 v (ih u2 hu2) hv

theorem distLe_succ_iff {V : Type} [DecidableEq V] (adj : V → Finset V) (s : Finset V)
    (k : ℕ) (v : V) :
    DistLe adj s (k + 1) v ↔ DistLe adj (dilateOnce adj s) k v := by
  constructor
  · intro h
    cases h with
    | of_seed _ _ hv => exact DistLe.of_seed _ _ ((mem_dilateOnce adj s v).2 (Or.inl hv))
    | hop _ u _ hu hvu => exact distLe_hop_dilateOnce hu v hvu
  · exact distLe_of_dilateOnce

theorem mem_dilate_iff_distLe {V : Type} [DecidableEq V] (adj : V → Finset V) (k : ℕ)
    (s : Finset V) (v : V) : v ∈ dilate adj k s ↔ DistLe adj s k v := by
  induction k generalizing s with
  | zero =>
    unfold dilate
    constructor
    · exact fun h => DistLe.of_seed _ _ h
    · intro h
      cases h with
      | of_seed _ _ hv => exact hv
  | succ k ih =>
    have h1 : dilate adj (k + 1) s = dilate adj k (dilateOnce adj s) := rfl
    rw [h1, ih (dilateOnce adj s)]
    exact (distLe_succ_iff adj s k v).symm

/-- C2: after `k` iterations the border mask holds exactly the vertices
at graph distance at most `k` from the boundary seed set (each
iteration expands the set as it existed at the start of the iteration
by one hop), and with `border_rings = 0` the border stage marks exactly
the seed vertices that are still kept. -/
theorem border_dilation_is_distance {V : Type} [DecidableEq V]
    (adj : V → Finset V) (seed : Finset V) :
    (∀ (k : ℕ) (v : V), v ∈ dilate adj k seed ↔ DistLe adj seed k v)
    ∧ (∀ (r : V → ℕ) (v : V),
        stage3 true adj seed 0 r v = if v ∈ seed ∧ r v = 0 then 3 else r v) := by
  constructor
  · exact fun k v => mem_dilate_iff_distLe adj k seed v
  · intro r v
    rfl

/-! Lemmas about the np.unique / np.argmax model used by the island
stage. -/

theorem npMax_cons (x : ℕ) (t : List ℕ) : npMax (x :: t) = max x (npMax t) := rfl

theorem le_npMax (l : List ℕ) (a : ℕ) : a ∈ l → a ≤ npMax l := by
  induction l with
  | nil => intro h; cases h
  | cons x t ih =>
    intro h
    rw [npMax_cons]
    rcases List.mem_cons.1 h with rfl | h2
    · exact le_max_left _ _
    · exact le_trans (ih h2) (le_max_right _ _)

theorem npMax_mem (l : List ℕ) : l ≠ [] → npMax l ∈ l := by
  induction l with
  | nil => intro h; exact absurd rfl h
  | cons x t ih =>
    intro _
    rw [npMax_cons]
    rcases eq_or_ne t [] with rfl | ht
    · simp [npMax]
    · rcases le_total (npMax t) x with hle | hle
      · rw [max_eq_left hle]
        exact List.mem_cons_self x t
      · rw [max_eq_right hle]
        exact List.mem_cons_of_mem x (ih ht)

theorem indexOf_min {α : Type} [DecidableEq α] (l : List α) (a : α) :
    ∀ (j : ℕ) (hj : j < l.length), l.get ⟨j, hj⟩ = a → l.indexOf a ≤ j := by
  induction l with
  | nil => intro j hj; cases hj
  | cons x t ih =>
    intro j hj hget
    cases j with
    | zero =>
      have : x = a := hget
      rw [List.indexOf_cons_eq t this]
    | succ j2 =>
      rcases eq_or_ne x a with rfl | hne
      · rw [List.indexOf_cons_self]
        exact Nat.zero_le _
      · rw [List.indexOf_cons_ne t hne]
        have h2 : t.get ⟨j2, Nat.lt_of_succ_lt_succ hj⟩ = a := hget
        exact Nat.succ_le_succ (ih j2 (Nat.lt_of_succ_lt_succ hj) h2)

theorem mem_npUnique (l : List ℕ) (c : ℕ) : c ∈ npUnique l ↔ c ∈ l := by
  unfold npUnique
  rw [List.mem_insertionSort, List.mem_dedup]

theorem npUnique_sorted (l : List ℕ) : List.Sorted (· ≤ ·) (npUnique l) :=
  List.sorted_insertionSort _ _

/-- Bridge between the occurrence count in the `kept_clusters` array and
the number of preliminarily-kept faces carrying the cluster id. -/
theorem count_keptClustersList (nF : ℕ) (cl fr : Fin nF → ℕ) (c : ℕ) :
    (keptClustersList nF cl fr).count c = keptCount (F := Fin nF) cl fr c := by
  unfold keptClustersList keptCount keptFaces
  rw [List.count_eq_countP, List.countP_map, List.countP_filter]
  rw [Finset.filter_filter]
  rw [Finset.card, Finset.filter_val, Fin.univ_def]
  rw [Multiset.filter_coe, Multiset.coe_card, ← List.countP_eq_length_filter]
  exact List.countP_congr (fun f _ => by simp [and_comm])

/-- C3: with at least one preliminarily-kept face and at least one
cluster, `largest_kept_cluster_id` is the cluster id of some kept face,
its kept-face count is maximal, ties are broken towards the lowest
cluster id, the choice only depends on the cluster ids of the kept
faces, and the island stage writes the code 4 exactly to the kept faces
in other clusters while faces with a non-zero reason are untouched. -/
theorem island_stage_spec (nF : ℕ) (cl fr : Fin nF → ℕ) (numClusters : ℕ)
    (hne : keptClustersList nF cl fr ≠ []) (hnc : 0 < numClusters) :
    (largest_kept_cluster_id nF cl fr ∈ keptClustersList nF cl fr)
    ∧ (∀ c : ℕ, keptCount (F := Fin nF) cl fr c
        ≤ keptCount (F := Fin nF) cl fr (largest_kept_cluster_id nF cl fr))
    ∧ (∀ c ∈ keptClustersList nF cl fr,
        keptCount (F := Fin nF) cl fr c
          = keptCount (F := Fin nF) cl fr (largest_kept_cluster_id nF cl fr) →
        largest_kept_cluster_id nF cl fr ≤ c)
    ∧ (∀ cl2 : Fin nF → ℕ, (∀ f, fr f = 0 → cl2 f = cl f) →
        largest_kept_cluster_id nF cl2 fr = largest_kept_cluster_id nF cl fr)
    ∧ (∀ f, fr f = 0 → cl f ≠ largest_kept_cluster_id nF cl fr →
        stage4 nF true numClusters cl fr f = 4)
    ∧ (∀ f, fr f ≠ 0 → stage4 nF true numClusters cl fr f = fr f) := by
  have hu_ne : npUnique (keptClustersList nF cl fr) ≠ [] := by
    rcases List.exists_mem_of_ne_nil _ hne with ⟨x, hx⟩
    intro h0
    have hxu := (mem_npUnique _ x).2 hx
    rw [h0] at hxu
    cases hxu
  have hcts_ne : npCounts (keptClustersList nF cl fr) (npUnique (keptClustersList nF cl fr))
      ≠ [] := by
    unfold npCounts
    intro h0
    exact hu_ne (List.map_eq_nil.1 h0)
  have hmem : npMax (npCounts (keptClustersList nF cl fr)
      (npUnique (keptClustersList nF cl fr)))
      ∈ npCounts (keptClustersList nF cl fr) (npUnique (keptClustersList nF cl fr)) :=
    npMax_mem _ hcts_ne
  have hi_lt : npArgmax (npCounts (keptClustersList nF cl fr)
      (npUnique (keptClustersList nF cl fr)))
      < (npCounts (keptClustersList nF cl fr) (npUnique (keptClustersList nF cl fr))).length :=
    List.indexOf_lt_length.2 hmem
  have hlen : (npCounts (keptClustersList nF cl fr)
      (npUnique (keptClustersList nF cl fr))).length
      = (npUnique (keptClustersList nF cl fr)).length := List.length_map _ _
  have hi_lt_u : npArgmax (npCounts (keptClustersList nF cl fr)
      (npUnique (keptClustersList nF cl fr)))
      < (npUnique (keptClustersList nF cl fr)).length := hlen ▸ hi_lt
  have hL : largest_kept_cluster_id nF cl fr
      = (npUnique (keptClustersList nF cl fr)).get
          ⟨npArgmax (npCounts (keptClustersList nF cl fr)
            (npUnique (keptClustersList nF cl fr))), hi_lt_u⟩ := by
    unfold largest_kept_cluster_id
    exact List.getD_eq_get _ _ hi_lt_u
  have hcts_at : ∀ (j : ℕ) (hj : j < (npUnique (keptClustersList nF cl fr)).length),
      (npCounts (keptClustersList nF cl fr) (npUnique (keptClustersList nF cl fr))).get
        ⟨j, hlen.symm ▸ hj⟩
      = (keptClustersList nF cl fr).count ((npUnique (keptClustersList nF cl fr)).get ⟨j, hj⟩) := by
    intro j hj
    unfold npCounts
    exact List.get_map _
  have hcountL : (keptClustersList nF cl fr).count (largest_kept_cluster_id nF cl fr)
      = npMax (npCounts (keptClustersList nF cl fr)
          (npUnique (keptClustersList nF cl fr))) := by
    rw [hL, ← hcts_at _ hi_lt_u]
    exact List.indexOf_get _
  have hLmem : largest_kept_cluster_id nF cl fr ∈ keptClustersList nF cl fr := by
    rw [hL]
    exact (mem_npUnique _ _).1 (List.get_mem _ _ _)
  have hmax : ∀ c : ℕ, (keptClustersList nF cl fr).count c
      ≤ (keptClustersList nF cl fr).count (largest_kept_cluster_id nF cl fr) := by
    intro c
    rw [hcountL]
    by_cases hc : c ∈ keptClustersList nF cl fr
    · refine le_npMax _ _ ?_
      unfold npCounts
      exact List.mem_map_of_mem _ ((mem_npUnique _ c).2 hc)
    · rw [List.count_eq_zero.2 hc]
      exact Nat.zero_le _
  refine ⟨hLmem, ?_, ?_, ?_, ?_, ?_⟩
  · intro c
    rw [← count_keptClustersList, ← count_keptClustersList]
    exact hmax c
  · intro c hcmem hceq
    rw [← count_keptClustersList, ← count_keptClustersList] at hceq
    rcases List.mem_iff_get.1 ((mem_npUnique _ c).2 hcmem) with ⟨⟨j, hj⟩, hget⟩
    have hcj : (npCounts (keptClustersList nF cl fr)
        (npUnique (keptClustersList nF cl fr))).get ⟨j, hlen.symm ▸ hj⟩
        = npMax (npCounts (keptClustersList nF cl fr)
            (npUnique (keptClustersList nF cl fr))) := by
      rw [hcts_at j hj, hget, hceq, hcountL]
    have hij : npArgmax (npCounts (keptClustersList nF cl fr)
        (npUnique (keptClustersList nF cl fr))) ≤ j :=
      indexOf_min _ _ j (hlen.symm ▸ hj) hcj
    have hsorted := npUnique_sorted (keptClustersList nF cl fr)
    have hle := List.Sorted.rel_get_of_le hsorted
      (a := ⟨npArgmax (npCounts (keptClustersList nF cl fr)
        (npUnique (keptClustersList nF cl fr))), hi_lt_u⟩) (b := ⟨j, hj⟩)
      (Fin.mk_le_mk.2 hij)
    rw [hL, ← hget]
    exact hle
  · intro cl2 hagree
    have hlist : keptClustersList nF cl2 fr = keptClustersList nF cl fr := by
      unfold keptClustersList
      refine List.map_congr_left ?_
      intro f hf
      have hfr : fr f = 0 := by
        have := (List.mem_filter.1 hf).2
        simpa using this
      exact hagree f hfr
    unfold largest_kept_cluster_id
    rw [hlist]
  · intro f h0 hclf
    unfold stage4
    rw [if_pos ⟨rfl, hnc, List.length_pos.2 hne⟩]
    exact if_pos ⟨h0, hclf⟩
  · intro f h0
    rcases stage4_eq_or nF true numClusters cl fr f with h | h
    · exact h
    · exact absurd h.1 h0

/-- Face reasons of the island witness: faces 0 and 1 kept, face 2
already marked. -/
def islFr : Fin 3 → ℕ := fun f => if f.val = 2 then 1 else 0

/-- Cluster ids of the island witness: face 0 in cluster 5, faces 1 and
2 in cluster 2, so the kept-face counts of clusters 5 and 2 tie at 1. -/
def islCl : Fin 3 → ℕ := fun f => if f.val = 0 then 5 else 2

/-- Witness for C3 at the concrete tie: the lowest tied cluster id (2)
wins, and the kept face of cluster 5 is marked 4. -/
theorem island_stage_spec_witness :
    largest_kept_cluster_id 3 islCl islFr ∈ keptClustersList 3 islCl islFr
    ∧ stage4 3 true 2 islCl islFr ⟨0, by decide⟩ = 4 :=
  ⟨(island_stage_spec 3 islCl islFr 2 (by decide) (by decide)).1,
   (island_stage_spec 3 islCl islFr 2 (by decide) (by decide)).2.2.2.2.1
     ⟨0, by decide⟩ (by decide) (by decide)⟩

/-- Population variance of the curvature values over a vertex set,
written independently of the source following the spec: the mean of the
squares minus the square of the mean (0 for an empty set). -/
def specPopulationVariance {V : Type} (curv : V → ℚ) (s : Finset V) : ℚ :=
  if s.card = 0 then 0
  else s.sum (fun u => curv u ^ 2) / s.card - (s.sum curv / s.card) ^ 2

/-- C10: the stage-2 variance of a vertex is the population variance of
the raw curvature values of all of its neighbours (the reason buffer
does not enter the computation), so whether a still-kept vertex is
marked by the variance stage does not depend on which vertices stage 1
marked. -/
theorem variance_is_population_variance_of_all_neighbors :
    (∀ (V : Type) (curv : V → ℚ) (adj : V → Finset V) (v : V),
      varianceOf curv adj v = specPopulationVariance curv (adj v))
    ∧ (∀ (V : Type) (curv : V → ℚ) (adj : V → Finset V) (t : ℚ) (r r2 : V → ℕ) (v : V),
        r v = 0 → r2 v = 0 →
        (stage2 true curv adj t r v = 2 ↔ stage2 true curv adj t r2 v = 2)) := by
  constructor
  · intro V curv adj v
    unfold varianceOf specPopulationVariance
    rcases eq_or_ne (adj v).card 0 with h | h
    · rw [if_pos h, if_pos h]
    · rw [if_neg h, if_neg h]
      have hn : ((adj v).card : ℚ) ≠ 0 := Nat.cast_ne_zero.2 h
      have h1 : ∀ u ∈ adj v,
          (curv u - (adj v).sum curv / (adj v).card) ^ 2
          = curv u ^ 2 - 2 * ((adj v).sum curv / (adj v).card) * curv u
            + ((adj v).sum curv / (adj v).card) ^ 2 := fun u _ => by ring
      rw [Finset.sum_congr rfl h1, Finset.sum_add_distrib, Finset.sum_sub_distrib,
        ← Finset.mul_sum, Finset.sum_const, nsmul_eq_mul]
      field_simp
      ring
  · intro V curv adj t r r2 v h1 h2
    have key : ∀ q : V → ℕ, q v = 0 →
        (stage2 true curv adj t q v = 2 ↔ varianceOf curv adj v > t) := by
      intro q hq
      unfold stage2
      rw [if_pos rfl]
      split
      · next hcond => simp [hcond.1]
      · next hcond =>
        rw [hq]
        constructor
        · intro h02
          exact absurd h02 (by decide)
        · intro hv
          exact absurd ⟨hv, hq⟩ hcond
    exact (key r h1).trans (key r2 h2).symm

/-- Witness for C10: for a concrete isolated vertex and two identical
zero buffers the marking decisions agree. -/
theorem variance_is_population_variance_witness :
    stage2 true (fun _ : Fin 1 => (0 : ℚ)) (fun _ => ∅) (-1) (fun _ => 0) ⟨0, Nat.one_pos⟩ = 2
    ↔ stage2 true (fun _ : Fin 1 => (0 : ℚ)) (fun _ => ∅) (-1) (fun _ => 0) ⟨0, Nat.one_pos⟩ = 2 :=
  variance_is_population_variance_of_all_neighbors.2 (Fin 1) (fun _ => 0) (fun _ => ∅)
    (-1) (fun _ => 0) (fun _ => 0) ⟨0, Nat.one_pos⟩ rfl rfl

end CleanMesh
